import Mathlib

/-!
Verification of the TrendBot referral ledger and publication log
(main_standalone.py), as a shallow embedding.

The embedding follows the source line by line:

* The dataclasses Offer, User, Referral and the posts table rows become
  Lean structures.  SQLite REAL columns (commission, gravity, reward
  amounts, earnings) are modelled as rationals; TIMESTAMP columns that no
  property depends on (created_at, updated_at) are dropped, while
  last_active, which save_user overwrites, is kept as a logical clock of
  type Nat.
* The database (trendbot.db) becomes a DB record of four lists in
  insertion order together with the four autoincrement counters.
* Each Database method becomes a function on DB.  The only SQLite error
  that can actually fire in the embedded operations is the UNIQUE
  constraint on users.referral_code, raised in save_user when inserting;
  it is modelled as StorageError.  The FOREIGN KEY clauses of the schema
  are never enforced, because the source never issues
  PRAGMA foreign_keys = ON and SQLite leaves foreign keys off by default,
  so log_post and save_referral cannot fail and are total.
* Randomness (random.choice, secrets.token_hex) is threaded through as
  explicit parameters: choice indices for generate_post, the generated
  referral code for start_command.
-/

namespace TrendBot

/-- The Offer dataclass (fields id .. platform, timestamps dropped). -/
structure Offer where
  id : Option Nat := none
  title : String := ""
  description : String := ""
  category : String := ""
  commission : ℚ := 0
  gravity : Option ℚ := none
  affiliate_link : String := ""
  platform : String := ""
deriving Repr, DecidableEq

/-- The User dataclass / users table row. -/
structure User where
  id : Option Nat := none
  user_id : Nat := 0
  username : String := ""
  first_name : String := ""
  referral_code : String := ""
  referred_by : Option String := none
  referral_count : Nat := 0
  total_earnings : ℚ := 0
  last_active : Nat := 0
deriving Repr, DecidableEq

/-- The Referral dataclass / referrals table row. -/
structure Referral where
  id : Option Nat := none
  referrer_code : String := ""
  referred_user_id : Nat := 0
  reward_amount : ℚ := 0
  status : String := "pending"
deriving Repr, DecidableEq

/-- A row of the posts table written by Database.log_post. -/
structure PostLog where
  id : Nat
  offer_id : Nat
  channel_id : String
  message_id : Nat
deriving Repr, DecidableEq

/-- The one storage failure reachable in the embedded operations: the
UNIQUE constraint on users.referral_code (users.user_id is checked by a
SELECT before every INSERT, and foreign keys are never enabled). -/
inductive StorageError where
  | uniqueViolation
deriving Repr, DecidableEq

/-- The SQLite database: the four tables in insertion order plus their
autoincrement counters (SQLite row ids start at 1). -/
structure DB where
  offers : List Offer := []
  users : List User := []
  referrals : List Referral := []
  posts : List PostLog := []
  nextOfferId : Nat := 1
  nextUserId : Nat := 1
  nextReferralId : Nat := 1
  nextPostId : Nat := 1
deriving Repr, DecidableEq

/-- Database.save_offer: INSERT INTO offers, returns lastrowid. -/
def save_offer (db : DB) (o : Offer) : Nat × DB :=
  (db.nextOfferId,
   { db with
       offers := db.offers ++ [{ o with id := some db.nextOfferId }],
       nextOfferId := db.nextOfferId + 1 })

/-- Database.log_post: INSERT INTO posts (offer_id, channel_id, message_id).
No constraint can fire (foreign keys are off), so the operation is total. -/
def log_post (db : DB) (offer_id : Nat) (channel_id : String) (message_id : Nat) : DB :=
  { db with
      posts := db.posts ++ [⟨db.nextPostId, offer_id, channel_id, message_id⟩],
      nextPostId := db.nextPostId + 1 }

/-- Database.get_user: SELECT * FROM users WHERE user_id = ?. -/
def get_user (db : DB) (uid : Nat) : Option User :=
  db.users.find? (fun u => u.user_id == uid)

/-- Database.get_user_by_referral_code: SELECT * FROM users WHERE referral_code = ?. -/
def get_user_by_referral_code (db : DB) (code : String) : Option User :=
  db.users.find? (fun u => u.referral_code == code)

/-- Database.save_user: if a row with the same user_id exists, UPDATE only
username, first_name and last_active (the source binds datetime.now() for
last_active); otherwise INSERT (user_id, username, first_name,
referral_code, referred_by) with the counter columns at their schema
defaults 0.  The INSERT raises on a duplicate referral_code (UNIQUE). -/
def save_user (db : DB) (u : User) (now : Nat) : Except StorageError (Nat × DB) :=
  match get_user db u.user_id with
  | some v =>
      .ok (v.id.getD 0,
        { db with
            users := db.users.map (fun w =>
              if w.user_id == u.user_id then
                { w with username := u.username, first_name := u.first_name,
                         last_active := now }
              else w) })
  | none =>
      if db.users.any (fun v => v.referral_code == u.referral_code) then
        .error StorageError.uniqueViolation
      else
        .ok (db.nextUserId,
          { db with
              users := db.users ++
                [{ id := some db.nextUserId, user_id := u.user_id,
                   username := u.username, first_name := u.first_name,
                   referral_code := u.referral_code, referred_by := u.referred_by,
                   referral_count := 0, total_earnings := 0, last_active := now }],
              nextUserId := db.nextUserId + 1 })

/-- Database.save_referral: INSERT INTO referrals, then
UPDATE users SET referral_count = referral_count + 1,
total_earnings = total_earnings + ? WHERE referral_code = ?.
No constraint can fire; if the referrer code matches no user the UPDATE
touches zero rows and the function still succeeds. -/
def save_referral (db : DB) (r : Referral) : Nat × DB :=
  (db.nextReferralId,
   { db with
       referrals := db.referrals ++ [{ r with id := some db.nextReferralId }],
       users := db.users.map (fun u =>
         if u.referral_code == r.referrer_code then
           { u with referral_count := u.referral_count + 1,
                    total_earnings := u.total_earnings + r.reward_amount }
         else u),
       nextReferralId := db.nextReferralId + 1 })

/-- Database.get_referrals: WHERE referrer_code = ? ORDER BY created_at DESC
(creation order is insertion order, so most recent first is the reverse). -/
def get_referrals (db : DB) (code : String) : List Referral :=
  (db.referrals.filter (fun r => r.referrer_code == code)).reverse

/-- The ORDER BY key of Database.get_leaderboard:
referral_count DESC, total_earnings DESC. -/
def leaderboard_le (a b : User) : Prop :=
  b.referral_count < a.referral_count ∨
    (a.referral_count = b.referral_count ∧ b.total_earnings ≤ a.total_earnings)

instance : DecidableRel leaderboard_le := fun a b => by
  unfold leaderboard_le
  infer_instance

instance : IsTotal User leaderboard_le where
  total a b := by
    rcases Nat.lt_trichotomy a.referral_count b.referral_count with h | h | h
    · exact Or.inr (Or.inl h)
    · rcases le_total a.total_earnings b.total_earnings with h2 | h2
      · exact Or.inr (Or.inr ⟨h.symm, h2⟩)
      · exact Or.inl (Or.inr ⟨h, h2⟩)
    · exact Or.inl (Or.inl h)

instance : IsTrans User leaderboard_le where
  trans a b c hab hbc := by
    rcases hab with h1 | ⟨h1, h1e⟩ <;> rcases hbc with h2 | ⟨h2, h2e⟩
    · exact Or.inl (h2.trans h1)
    · exact Or.inl (by omega)
    · exact Or.inl (by omega)
    · exact Or.inr ⟨h1.trans h2, h2e.trans h1e⟩

/-- Database.get_leaderboard: SELECT * FROM users WHERE referral_count > 0
ORDER BY referral_count DESC, total_earnings DESC LIMIT ?. -/
def get_leaderboard (db : DB) (limit : Nat) : List User :=
  ((db.users.filter (fun u => decide (0 < u.referral_count))).insertionSort
    leaderboard_le).take limit

/-- random.choice over a fixed list, with the random draw threaded as an
index (the lists below are nonempty, so the fallback is unreachable). -/
def pick (l : List String) (i : Nat) : String :=
  l.getD (i % l.length) ""

/-- ContentGenerator.emojis together with the .get(category, list of the
fire emoji) default. -/
def emojisFor (category : String) : List String :=
  if category = "make_money" then ["💰", "💵", "🤑", "💸", "🏆", "💎", "🚀"]
  else if category = "ai_tools" then ["🤖", "⚡", "🚀", "💡", "🔥", "⭐", "🎯"]
  else if category = "crypto_airdrops" then ["🪙", "💎", "🚀", "📈", "⭐", "🔥", "💰"]
  else if category = "newsletters" then ["📧", "📰", "📊", "💌", "🎯", "📈", "⭐"]
  else if category = "gadgets" then ["📱", "💻", "⌚", "🎧", "🔌", "🚀", "💡"]
  else ["🔥"]

/-- ContentGenerator.hooks. -/
def hooks : List String :=
  ["🚨 MONEY OPPORTUNITY ALERT!",
   "💰 EXCLUSIVE DEAL DISCOVERED!",
   "🔥 TRENDING NOW - LIMITED TIME!",
   "⚡ INSTANT PROFIT OPPORTUNITY!",
   "🎯 HIGH-COMMISSION ALERT!",
   "💎 PREMIUM OPPORTUNITY FOUND!",
   "🚀 VIRAL MONEY-MAKER SPOTTED!"]

/-- ContentGenerator.ctas. -/
def ctas : List String :=
  ["👆 CLICK TO CLAIM YOUR OPPORTUNITY",
   "🔗 TAP HERE TO START EARNING",
   "💰 CLICK NOW - LIMITED SPOTS",
   "⚡ INSTANT ACCESS - CLICK HERE",
   "🎯 CLAIM YOUR COMMISSION NOW",
   "🚀 START EARNING TODAY - CLICK",
   "💎 EXCLUSIVE ACCESS - TAP HERE"]

/-- The urgency_phrases local list of ContentGenerator.generate_post. -/
def urgency_phrases : List String :=
  ["⏰ *Limited time offer - Act fast!*",
   "🔥 *Trending now - Do not miss out!*",
   "⚡ *High demand - Secure your spot!*",
   "💎 *Exclusive access - Limited availability!*",
   "🚀 *Viral opportunity - Join now!*"]

/-- Fixed-point rendering with two decimals, standing in for the Python
format specifier .2f.  The rounding of a rational differs from rounding a
binary float only in the last digit, and no property here depends on the
digits produced. -/
def fmt2 (q : ℚ) : String :=
  let sign := if q < 0 then "-" else ""
  let c : Nat := (Rat.floor (|q| * 100 + 1 / 2)).toNat
  sign ++ toString (c / 100) ++ "." ++
    (if c % 100 < 10 then "0" else "") ++ toString (c % 100)

/-- Rendering with no decimals, standing in for the format specifier .0f. -/
def fmt0 (q : ℚ) : String :=
  let sign := if q < 0 then "-" else ""
  sign ++ toString (Rat.floor (|q| + 1 / 2)).toNat

/-- The Python str.title call on the category: capitalize each
space-separated word.  The categories fed to it are lowercase words, for
which this agrees with str.title. -/
def title_case (s : String) : String :=
  String.intercalate " " ((s.split (fun c => c == ' ')).map String.capitalize)

/-- The commission_text local of ContentGenerator.generate_post:
newsletter platforms show per-subscriber earnings. -/
def commission_text (offer : Offer) : String :=
  if offer.platform = "SparkLoop" ∨ offer.platform = "beehiiv" then
    "💵 **Earn**: $" ++ fmt2 offer.commission ++ " per subscriber"
  else
    "💵 **Commission**: $" ++ fmt2 offer.commission

/-- The popularity line of ContentGenerator.generate_post.  The source
guards it with the plain truthiness test on offer.gravity, under which
both None and the float 0.0 suppress the line. -/
def gravity_line (offer : Offer) : String :=
  match offer.gravity with
  | some g => if g = 0 then "" else "🔥 **Popularity**: " ++ fmt0 g ++ "/100\n"
  | none => ""

/-- ContentGenerator.generate_post with the four random.choice draws
(emoji, hook, cta, urgency phrase) threaded as indices. -/
def generate_post (offer : Offer) (ei hi ci ui : Nat) : String :=
  let emoji := pick (emojisFor offer.category) ei
  let hook := pick hooks hi
  let cta := pick ctas ci
  emoji ++ " **" ++ hook ++ "** " ++ emoji ++ "\n\n" ++
  "🎯 **" ++ offer.title ++ "**\n\n" ++
  commission_text offer ++ "\n" ++
  "⭐ **Platform**: " ++ offer.platform ++ "\n" ++
  "📈 **Category**: " ++ title_case (offer.category.replace "_" " ") ++ "\n" ++
  gravity_line offer ++
  "\n" ++ offer.description ++ "\n\n" ++
  cta ++ "\n" ++
  "🔗 " ++ offer.affiliate_link ++ "\n\n" ++
  pick urgency_phrases ui

/-- The three shapes of welcome message chosen by TrendBot.start_command. -/
inductive WelcomeType where
  | new_with_referral
  | new
  | returning
deriving Repr, DecidableEq

/-- TrendBot.start_command, state part: the onboarding flow.  now is the
clock value of this interaction, uid, username and first_name come from
update.effective_user, referral_code from the command arguments, and
freshCode is the random code secrets.token_hex produced for a new user.
The Python truthiness tests on referral_code make both None and the empty
string skip the referral processing and select the plain new-user
welcome.  The referrer lookup runs after the new user row was inserted,
exactly as in the source. -/
def start_command (db : DB) (now uid : Nat) (username first_name : String)
    (referral_code : Option String) (freshCode : String) :
    Except StorageError (DB × WelcomeType) :=
  match get_user db uid with
  | none =>
      let new_user : User :=
        { id := none, user_id := uid, username := username,
          first_name := first_name, referral_code := freshCode,
          referred_by := referral_code, referral_count := 0,
          total_earnings := 0, last_active := now }
      match save_user db new_user now with
      | .error e => .error e
      | .ok (_, db1) =>
          match referral_code with
          | some code =>
              if code = "" then .ok (db1, WelcomeType.new)
              else
                match get_user_by_referral_code db1 code with
                | some _ =>
                    let referral : Referral :=
                      { id := none, referrer_code := code,
                        referred_user_id := uid, reward_amount := 5,
                        status := "confirmed" }
                    .ok ((save_referral db1 referral).2, WelcomeType.new_with_referral)
                | none => .ok (db1, WelcomeType.new_with_referral)
          | none => .ok (db1, WelcomeType.new)
  | some existing =>
      match save_user db { existing with last_active := now } now with
      | .error e => .error e
      | .ok (_, db1) => .ok (db1, WelcomeType.returning)

/-- A referral against the code LUXAB12CD34, used as concrete test data. -/
def sampleReferral : Referral :=
  { referrer_code := "LUXAB12CD34", referred_user_id := 2,
    reward_amount := 5, status := "confirmed" }

/-- A stored user owning the code LUXAB12CD34, used as concrete test data. -/
def alice : User :=
  { id := some 1, user_id := 1, username := "alice", first_name := "Alice",
    referral_code := "LUXAB12CD34", referred_by := none,
    referral_count := 0, total_earnings := 0, last_active := 0 }

/-- A one-user store holding only alice, used as concrete test data.  It is
also what onboarding alice onto the empty store produces. -/
def dbAlice : DB := { users := [alice], nextUserId := 2 }

/-- The user row created when bob joins through the code of alice. -/
def bobUser : User :=
  { id := some 2, user_id := 2, username := "bob", first_name := "Bob",
    referral_code := "LUXEF56GH78", referred_by := some "LUXAB12CD34",
    referral_count := 0, total_earnings := 0, last_active := 1 }

/-- The store after the two-step onboarding scenario: alice credited with
one referral and a reward of 5, bob stored with his fresh code, one
confirmed Referral row recorded. -/
def dbScenario2 : DB :=
  { users := [{ alice with referral_count := 0 + 1, total_earnings := 0 + 5 },
              bobUser],
    referrals := [{ sampleReferral with id := some 1 }],
    nextUserId := 3, nextReferralId := 2 }

/-- Mapping a function that fixes every element of a list is the identity. -/
theorem map_id_of_fixed {α : Type} (l : List α) (f : α → α)
    (h : ∀ a ∈ l, f a = a) : l.map f = l := by
  induction l with
  | nil => rfl
  | cons a t ih =>
      rw [List.map_cons, h a (List.mem_cons_self a t),
        ih (fun b hb => h b (List.mem_cons_of_mem a hb))]

/-- find? commutes with mapping a function that preserves the predicate. -/
theorem find?_map_pred_invariant {α : Type} (p : α → Bool) (f : α → α)
    (hf : ∀ a, p (f a) = p a) :
    ∀ l : List α, (l.map f).find? p = (l.find? p).map f := by
  intro l
  induction l with
  | nil => rfl
  | cons a t ih =>
      by_cases hp : p a = true
      · rw [List.map_cons, List.find?_cons_of_pos t hp,
          List.find?_cons_of_pos (t.map f) (by rw [hf a]; exact hp)]
        rfl
      · rw [List.map_cons, List.find?_cons_of_neg t hp,
          List.find?_cons_of_neg (t.map f) (by rw [hf a]; exact hp), ih]

/-- If find? misses the left part of an append, it searches the right. -/
theorem find?_append_left_none {α : Type} (p : α → Bool) (l1 l2 : List α)
    (h : l1.find? p = none) : (l1 ++ l2).find? p = l2.find? p := by
  rw [List.find?_append, h, Option.none_or]

/-- C1: the claim demands that save_referral fail with StorageError on a
referrer code that resolves to no user and leave no Referral row.  The
code does neither: foreign keys are off, the INSERT always succeeds, and
the UPDATE merely touches zero rows.  Amended statement: when
referrer_code resolves to no user, save_referral succeeds, leaves every
user row (hence every aggregate) unchanged, and appends the dangling
Referral row to the store. -/
theorem c1_dangling_referral_silently_inserted (db : DB) (r : Referral)
    (h : get_user_by_referral_code db r.referrer_code = none) :
    (save_referral db r).2.users = db.users ∧
    (save_referral db r).2.referrals =
      db.referrals ++ [{ r with id := some db.nextReferralId }] := by
  refine ⟨?_, rfl⟩
  have h2 : ∀ u ∈ db.users, (u.referral_code == r.referrer_code) = false := by
    intro u hu
    simpa using List.find?_eq_none.mp h u hu
  exact map_id_of_fixed db.users _ (fun u hu => by simp [h2 u hu])

/-- C1 witness: the amended statement applied to the empty store. -/
theorem c1_dangling_referral_silently_inserted_witness :
    get_user_by_referral_code {} sampleReferral.referrer_code = none ∧
    ((save_referral {} sampleReferral).2.users = ({} : DB).users ∧
     (save_referral {} sampleReferral).2.referrals =
       ({} : DB).referrals ++
         [{ sampleReferral with id := some ({} : DB).nextReferralId }]) :=
  ⟨rfl, c1_dangling_referral_silently_inserted {} sampleReferral rfl⟩

/-- C1 counterexample: on the empty store the referrer code resolves to no
user, yet save_referral leaves a Referral row behind, contradicting the
claim that the insert fails and no row is left. -/
theorem c1_counterexample :
    get_user_by_referral_code {} sampleReferral.referrer_code = none ∧
    (save_referral {} sampleReferral).2.referrals ≠ ({} : DB).referrals :=
  ⟨rfl, by decide⟩

/-- C2: the claim demands that log_post fail with StorageError and append
nothing when offerId references no Offer.  The posts table foreign key is
never enforced (no PRAGMA foreign_keys), so log_post is total.  Amended
statement: for every offerId, existing or dangling, log_post succeeds and
appends exactly one PostLog row, leaving the other tables unchanged. -/
theorem c2_log_post_always_appends_one_row (db : DB) (oid : Nat)
    (cid : String) (mid : Nat) :
    (log_post db oid cid mid).posts = db.posts ++ [⟨db.nextPostId, oid, cid, mid⟩] ∧
    (log_post db oid cid mid).offers = db.offers ∧
    (log_post db oid cid mid).users = db.users ∧
    (log_post db oid cid mid).referrals = db.referrals :=
  ⟨rfl, rfl, rfl, rfl⟩

/-- C2 counterexample: on the empty store no offer with id 1 exists, yet
log_post appends a PostLog row instead of failing with StorageError. -/
theorem c2_counterexample :
    (({} : DB).offers.any (fun o => o.id == some 1)) = false ∧
    (log_post {} 1 "channel" 7).posts.length = ({} : DB).posts.length + 1 :=
  ⟨rfl, rfl⟩

/-- C3: when referrer_code resolves to a user, save_referral appends the
Referral row and, in the same operation, that referrer ends with
referral_count + 1 and total_earnings + reward_amount, while every user
with a different code keeps their row unchanged.  In particular the
onboarding scenario: alice joins with no code, bob joins with the code of
alice, and one Referral row with reward 5 and status confirmed is
recorded while the aggregates of alice go from (0, 0) to (1, 5). -/
theorem c3_save_referral_credits_referrer :
    (∀ (db : DB) (r : Referral) (w : User),
       get_user_by_referral_code db r.referrer_code = some w →
       (save_referral db r).2.referrals =
           db.referrals ++ [{ r with id := some db.nextReferralId }] ∧
         get_user_by_referral_code (save_referral db r).2 r.referrer_code =
           some { w with referral_count := w.referral_count + 1,
                         total_earnings := w.total_earnings + r.reward_amount } ∧
         (∀ u ∈ db.users, u.referral_code ≠ r.referrer_code →
           u ∈ (save_referral db r).2.users)) ∧
    (∃ db1 db2,
       start_command {} 0 1 "alice" "Alice" none "LUXAB12CD34" =
           .ok (db1, WelcomeType.new) ∧
         start_command db1 1 2 "bob" "Bob" (some "LUXAB12CD34") "LUXEF56GH78" =
           .ok (db2, WelcomeType.new_with_referral) ∧
         db2.referrals = [{ sampleReferral with id := some 1 }] ∧
         (get_user db1 1).map (fun u => (u.referral_count, u.total_earnings)) =
           some (0, 0) ∧
         (get_user db2 1).map (fun u => (u.referral_count, u.total_earnings)) =
           some (1, 5)) := by
  constructor
  · intro db r w h
    refine ⟨rfl, ?_, ?_⟩
    · have hfind : db.users.find? (fun u => u.referral_code == r.referrer_code) =
          some w := h
      have hw : (w.referral_code == r.referrer_code) = true := by
        simpa using List.find?_some hfind
      have hcomm := find?_map_pred_invariant
        (fun u : User => u.referral_code == r.referrer_code)
        (fun u : User =>
          if u.referral_code == r.referrer_code then
            { u with referral_count := u.referral_count + 1,
                     total_earnings := u.total_earnings + r.reward_amount }
          else u)
        (fun u => by by_cases hc : (u.referral_code == r.referrer_code) = true <;>
          simp [hc])
        db.users
      show (db.users.map _).find? _ = _
      rw [hcomm, hfind]
      exact congrArg some (if_pos hw)
    · intro u hu hne
      refine List.mem_map.mpr ⟨u, hu, ?_⟩
      simp [hne]
  · refine ⟨dbAlice, dbScenario2, rfl, rfl, rfl, rfl, ?_⟩
    show some ((0 : Nat) + 1, (0 : ℚ) + 5) = some (1, 5)
    norm_num

/-- C3 witness: the crediting statement applied to the one-user store. -/
theorem c3_save_referral_credits_referrer_witness :
    get_user_by_referral_code dbAlice sampleReferral.referrer_code = some alice ∧
    ((save_referral dbAlice sampleReferral).2.referrals =
        dbAlice.referrals ++
          [{ sampleReferral with id := some dbAlice.nextReferralId }] ∧
      get_user_by_referral_code (save_referral dbAlice sampleReferral).2
          sampleReferral.referrer_code =
        some { alice with referral_count := alice.referral_count + 1,
                          total_earnings :=
                            alice.total_earnings + sampleReferral.reward_amount } ∧
      (∀ u ∈ dbAlice.users, u.referral_code ≠ sampleReferral.referrer_code →
        u ∈ (save_referral dbAlice sampleReferral).2.users)) :=
  ⟨rfl, c3_save_referral_credits_referrer.1 dbAlice sampleReferral alice rfl⟩

/-- Mapping g after an update f that g cannot observe equals mapping g. -/
theorem map_map_eq_of {α β : Type} (l : List α) (f : α → α) (g : α → β)
    (h : ∀ a ∈ l, g (f a) = g a) : (l.map f).map g = l.map g := by
  induction l with
  | nil => rfl
  | cons a t ih =>
      rw [List.map_cons, List.map_cons, List.map_cons,
        h a (List.mem_cons_self a t),
        ih (fun b hb => h b (List.mem_cons_of_mem a hb))]

/-- save_user on an already stored user_id takes the UPDATE path. -/
theorem save_user_update (db : DB) (u : User) (now : Nat) (e : User)
    (h : get_user db u.user_id = some e) :
    save_user db u now = .ok (e.id.getD 0,
      { db with users := db.users.map (fun w =>
          if w.user_id == u.user_id then
            { w with username := u.username, first_name := u.first_name,
                     last_active := now }
          else w) }) := by
  unfold save_user
  rw [h]

/-- save_user on a fresh user_id with an unused referral code INSERTs. -/
theorem save_user_insert (db : DB) (u : User) (now : Nat)
    (h1 : get_user db u.user_id = none)
    (h2 : (db.users.any (fun v => v.referral_code == u.referral_code)) = false) :
    save_user db u now = .ok (db.nextUserId,
      { db with
          users := db.users ++
            [{ id := some db.nextUserId, user_id := u.user_id,
               username := u.username, first_name := u.first_name,
               referral_code := u.referral_code, referred_by := u.referred_by,
               referral_count := 0, total_earnings := 0, last_active := now }],
          nextUserId := db.nextUserId + 1 }) := by
  unfold save_user
  rw [h1, h2]
  rfl

/-- start_command for a stored user: only the activity refresh runs, and
the UPDATE writes back the stored username and first_name unchanged. -/
theorem start_command_returning (db : DB) (now uid : Nat) (un fn : String)
    (rc : Option String) (freshCode : String) (e : User)
    (h : get_user db uid = some e) :
    start_command db now uid un fn rc freshCode =
      .ok ({ db with users := db.users.map (fun w =>
          if w.user_id == uid then
            { w with username := e.username, first_name := e.first_name,
                     last_active := now }
          else w) }, WelcomeType.returning) := by
  have hfind : db.users.find? (fun v => v.user_id == uid) = some e := h
  have huid : e.user_id = uid := by simpa using List.find?_some hfind
  have h2 : get_user db ({ e with last_active := now } : User).user_id = some e := by
    show get_user db e.user_id = some e
    rw [huid]
    exact h
  simp only [start_command, h]
  rw [save_user_update db { e with last_active := now } now e h2]
  simp only [huid]

/-- start_command for a fresh user with no referral argument: it inserts
the new row with the generated code and reports a plain new user. -/
theorem start_command_new_no_code (db : DB) (now uid : Nat)
    (un fn freshCode : String)
    (h1 : get_user db uid = none)
    (h2 : (db.users.any (fun v => v.referral_code == freshCode)) = false) :
    start_command db now uid un fn none freshCode =
      .ok ({ db with
          users := db.users ++
            [{ id := some db.nextUserId, user_id := uid, username := un,
               first_name := fn, referral_code := freshCode,
               referred_by := none, referral_count := 0,
               total_earnings := 0, last_active := now }],
          nextUserId := db.nextUserId + 1 }, WelcomeType.new) := by
  have hs := save_user_insert db
    { id := none, user_id := uid, username := un, first_name := fn,
      referral_code := freshCode, referred_by := none, referral_count := 0,
      total_earnings := 0, last_active := now } now h1 h2
  simp only [start_command, h1, hs]

/-- A list in which no element carries the given code fails the any scan. -/
theorem any_code_eq_false (l : List User) (code : String)
    (h : ∀ v ∈ l, v.referral_code ≠ code) :
    (l.any (fun v => v.referral_code == code)) = false := by
  cases hB : l.any (fun v => v.referral_code == code) with
  | false => rfl
  | true =>
      obtain ⟨v, hv, hvp⟩ := List.any_eq_true.mp hB
      exact absurd (by simpa using hvp) (h v hv)

/-- C4: save_user on an existing platform user_id updates only username,
first_name and last_active of that row — id, user_id, referral_code,
referred_by, referral_count and total_earnings survive on every row, rows
with a different user_id survive verbatim, and the referrals table is
untouched.  Consequently onboarding the same platform user twice with no
referral code reports returning (not new) the second time, and the
referral code after both calls is the one assigned at creation. -/
theorem c4_upsert_preserves_referral_identity :
    (∀ (db : DB) (u : User) (now : Nat) (e : User),
       get_user db u.user_id = some e →
       ∃ db2,
         save_user db u now = .ok (e.id.getD 0, db2) ∧
           db2.users.map (fun v =>
               (v.id, v.user_id, v.referral_code, v.referred_by,
                v.referral_count, v.total_earnings)) =
             db.users.map (fun v =>
               (v.id, v.user_id, v.referral_code, v.referred_by,
                v.referral_count, v.total_earnings)) ∧
           get_user db2 u.user_id =
             some { e with username := u.username, first_name := u.first_name,
                           last_active := now } ∧
           (∀ v ∈ db.users, v.user_id ≠ u.user_id → v ∈ db2.users) ∧
           db2.referrals = db.referrals) ∧
    (∀ (db : DB) (now1 now2 uid : Nat) (un1 fn1 un2 fn2 fresh1 fresh2 : String),
       get_user db uid = none →
       (∀ v ∈ db.users, v.referral_code ≠ fresh1) →
       ∃ db1 db2 u2,
         start_command db now1 uid un1 fn1 none fresh1 =
             .ok (db1, WelcomeType.new) ∧
           start_command db1 now2 uid un2 fn2 none fresh2 =
             .ok (db2, WelcomeType.returning) ∧
           get_user db2 uid = some u2 ∧
           u2.referral_code = fresh1) := by
  constructor
  · intro db u now e h
    have hfind : db.users.find? (fun v => v.user_id == u.user_id) = some e := h
    have he : (e.user_id == u.user_id) = true := by
      simpa using List.find?_some hfind
    refine ⟨_, save_user_update db u now e h, ?_, ?_, ?_, rfl⟩
    · exact map_map_eq_of _ _ _ (fun v hv => by
        by_cases hc : (v.user_id == u.user_id) = true <;> simp [hc])
    · have hcomm := find?_map_pred_invariant
        (fun v : User => v.user_id == u.user_id)
        (fun w : User =>
          if w.user_id == u.user_id then
            { w with username := u.username, first_name := u.first_name,
                     last_active := now }
          else w)
        (fun v => by
          by_cases hc : (v.user_id == u.user_id) = true <;> simp [hc])
        db.users
      show (db.users.map _).find? _ = _
      rw [hcomm, hfind]
      exact congrArg some (if_pos he)
    · intro v hv hne
      refine List.mem_map.mpr ⟨v, hv, ?_⟩
      simp [hne]
  · intro db now1 now2 uid un1 fn1 un2 fn2 fresh1 fresh2 h1 h2
    have hany := any_code_eq_false db.users fresh1 h2
    have hfind1 : (db.users ++
        [({ id := some db.nextUserId, user_id := uid, username := un1,
            first_name := fn1, referral_code := fresh1, referred_by := none,
            referral_count := 0, total_earnings := 0,
            last_active := now1 } : User)]).find? (fun v => v.user_id == uid) =
        some ({ id := some db.nextUserId, user_id := uid, username := un1,
                first_name := fn1, referral_code := fresh1, referred_by := none,
                referral_count := 0, total_earnings := 0,
                last_active := now1 } : User) := by
      rw [find?_append_left_none _ _ _ h1]
      simp [List.find?]
    refine ⟨_, _,
      { id := some db.nextUserId, user_id := uid, username := un1,
        first_name := fn1, referral_code := fresh1, referred_by := none,
        referral_count := 0, total_earnings := 0, last_active := now2 },
      start_command_new_no_code db now1 uid un1 fn1 fresh1 h1 hany,
      start_command_returning _ now2 uid un2 fn2 none fresh2 _ hfind1,
      ?_, rfl⟩
    have hcomm := find?_map_pred_invariant
      (fun v : User => v.user_id == uid)
      (fun w : User =>
        if w.user_id == uid then
          { w with username := un1, first_name := fn1, last_active := now2 }
        else w)
      (fun v => by
        by_cases hc : (v.user_id == uid) = true <;> simp [hc])
      (db.users ++
        [({ id := some db.nextUserId, user_id := uid, username := un1,
            first_name := fn1, referral_code := fresh1, referred_by := none,
            referral_count := 0, total_earnings := 0,
            last_active := now1 } : User)])
    show (List.map _ _).find? _ = _
    rw [hcomm, hfind1]
    exact congrArg some (if_pos (by simp))

/-- A later interaction of alice carrying changed profile fields. -/
def aliceRenamed : User :=
  { user_id := 1, username := "alicia", first_name := "Alicia",
    referral_code := "LUXQQ11WW22" }

/-- C4 witness: the update frame applied to the one-user store, and the
onboard-twice consequence applied to the empty store. -/
theorem c4_upsert_preserves_referral_identity_witness :
    (get_user dbAlice aliceRenamed.user_id = some alice ∧
      (∃ db2,
        save_user dbAlice aliceRenamed 5 = .ok (alice.id.getD 0, db2) ∧
          db2.users.map (fun v =>
              (v.id, v.user_id, v.referral_code, v.referred_by,
               v.referral_count, v.total_earnings)) =
            dbAlice.users.map (fun v =>
              (v.id, v.user_id, v.referral_code, v.referred_by,
               v.referral_count, v.total_earnings)) ∧
          get_user db2 aliceRenamed.user_id =
            some { alice with username := aliceRenamed.username,
                              first_name := aliceRenamed.first_name,
                              last_active := 5 } ∧
          (∀ v ∈ dbAlice.users, v.user_id ≠ aliceRenamed.user_id →
            v ∈ db2.users) ∧
          db2.referrals = dbAlice.referrals)) ∧
    (get_user ({} : DB) 1 = none ∧
      (∀ v ∈ ({} : DB).users, v.referral_code ≠ "LUXAB12CD34") ∧
      (∃ db1 db2 u2,
        start_command {} 0 1 "alice" "Alice" none "LUXAB12CD34" =
            .ok (db1, WelcomeType.new) ∧
          start_command db1 4 1 "ally" "Ally" none "LUXOTHER77" =
            .ok (db2, WelcomeType.returning) ∧
          get_user db2 1 = some u2 ∧
          u2.referral_code = "LUXAB12CD34")) :=
  ⟨⟨rfl, c4_upsert_preserves_referral_identity.1 dbAlice aliceRenamed 5 alice rfl⟩,
   ⟨rfl, by simp,
    c4_upsert_preserves_referral_identity.2 {} 0 4 1 "alice" "Alice" "ally"
      "Ally" "LUXAB12CD34" "LUXOTHER77" rfl (by simp)⟩⟩

/-- C7: re-onboarding a platform user already present in the store, with
any claimed referral code (also one already tied to that very user),
leaves the referrals table unchanged and every referral_count and
total_earnings value unchanged; the interaction reports returning. -/
theorem c7_reentry_never_double_credits (db : DB) (now uid : Nat)
    (un fn : String) (rc : Option String) (freshCode : String) (e : User)
    (h : get_user db uid = some e) :
    ∃ db2,
      start_command db now uid un fn rc freshCode =
          .ok (db2, WelcomeType.returning) ∧
        db2.referrals = db.referrals ∧
        db2.users.map (fun v =>
            (v.user_id, v.referral_code, v.referral_count, v.total_earnings)) =
          db.users.map (fun v =>
            (v.user_id, v.referral_code, v.referral_count, v.total_earnings)) := by
  refine ⟨_, start_command_returning db now uid un fn rc freshCode e h, rfl, ?_⟩
  exact map_map_eq_of _ _ _ (fun v hv => by
    by_cases hc : (v.user_id == uid) = true <;> simp [hc])

/-- C7 witness: alice re-onboards claiming her own code LUXAB12CD34. -/
theorem c7_reentry_never_double_credits_witness :
    get_user dbAlice 1 = some alice ∧
    (∃ db2,
      start_command dbAlice 7 1 "alice" "Alice" (some "LUXAB12CD34")
          "LUXFRESH99" = .ok (db2, WelcomeType.returning) ∧
        db2.referrals = dbAlice.referrals ∧
        db2.users.map (fun v =>
            (v.user_id, v.referral_code, v.referral_count, v.total_earnings)) =
          dbAlice.users.map (fun v =>
            (v.user_id, v.referral_code, v.referral_count, v.total_earnings))) :=
  ⟨rfl, c7_reentry_never_double_credits dbAlice 7 1 "alice" "Alice"
    (some "LUXAB12CD34") "LUXFRESH99" alice rfl⟩

/-- C8: onboarding a genuinely new platform user with a claimed code that
resolves to no user succeeds without error: the new row is stored with
its fresh generated code and the dangling claimed code kept in
referred_by, no Referral row is created and no aggregates move (the
result store differs from the input store only by the appended user). -/
theorem c8_unresolvable_code_silently_ignored (db : DB) (now uid : Nat)
    (un fn code freshCode : String)
    (h1 : get_user db uid = none)
    (h2 : ∀ v ∈ db.users, v.referral_code ≠ freshCode)
    (h3 : get_user_by_referral_code db code = none)
    (h4 : freshCode ≠ code) (h5 : code ≠ "") :
    start_command db now uid un fn (some code) freshCode =
      .ok ({ db with
          users := db.users ++
            [{ id := some db.nextUserId, user_id := uid, username := un,
               first_name := fn, referral_code := freshCode,
               referred_by := some code, referral_count := 0,
               total_earnings := 0, last_active := now }],
          nextUserId := db.nextUserId + 1 },
        WelcomeType.new_with_referral) := by
  have hany := any_code_eq_false db.users freshCode h2
  have hs := save_user_insert db
    { id := none, user_id := uid, username := un, first_name := fn,
      referral_code := freshCode, referred_by := some code,
      referral_count := 0, total_earnings := 0, last_active := now } now h1 hany
  have hlook : get_user_by_referral_code
      ({ db with
          users := db.users ++
            [{ id := some db.nextUserId, user_id := uid, username := un,
               first_name := fn, referral_code := freshCode,
               referred_by := some code, referral_count := 0,
               total_earnings := 0, last_active := now }],
          nextUserId := db.nextUserId + 1 }) code = none := by
    have hbeq : (freshCode == code) = false := by
      cases hB : freshCode == code with
      | false => rfl
      | true => exact absurd (by simpa using hB) h4
    show (db.users ++ _).find? _ = _
    rw [find?_append_left_none _ _ _ h3]
    simp [List.find?, hbeq]
  simp only [start_command, h1, hs]
  rw [if_neg h5, hlook]

/-- C8 witness: a new user joins the one-user store with a typo code. -/
theorem c8_unresolvable_code_silently_ignored_witness :
    get_user dbAlice 2 = none ∧
    (∀ v ∈ dbAlice.users, v.referral_code ≠ "LUXNEW1111") ∧
    get_user_by_referral_code dbAlice "LUXTYPO0000" = none ∧
    ("LUXNEW1111" : String) ≠ "LUXTYPO0000" ∧
    ("LUXTYPO0000" : String) ≠ "" ∧
    start_command dbAlice 3 2 "bob" "Bob" (some "LUXTYPO0000") "LUXNEW1111" =
      .ok ({ dbAlice with
          users := dbAlice.users ++
            [{ id := some dbAlice.nextUserId, user_id := 2, username := "bob",
               first_name := "Bob", referral_code := "LUXNEW1111",
               referred_by := some "LUXTYPO0000", referral_count := 0,
               total_earnings := 0, last_active := 3 }],
          nextUserId := dbAlice.nextUserId + 1 },
        WelcomeType.new_with_referral) :=
  ⟨rfl, by decide, rfl, by decide, by decide,
    c8_unresolvable_code_silently_ignored dbAlice 3 2 "bob" "Bob"
      "LUXTYPO0000" "LUXNEW1111" rfl (by decide) rfl (by decide) (by decide)⟩

/-- C5: get_leaderboard returns at most limit users, only users with a
positive referral_count, and the rows are ordered by referral_count
descending with ties broken by total_earnings descending. -/
theorem c5_leaderboard_sorted_filtered_limited (db : DB) (limit : Nat) :
    (get_leaderboard db limit).length ≤ limit ∧
    (get_leaderboard db limit).all (fun u => decide (0 < u.referral_count)) = true ∧
    List.Pairwise leaderboard_le (get_leaderboard db limit) := by
  refine ⟨List.length_take_le limit _, ?_, ?_⟩
  · rw [List.all_eq_true]
    intro u hu
    have h1 : u ∈ (db.users.filter
        (fun u => decide (0 < u.referral_count))).insertionSort leaderboard_le :=
      List.mem_of_mem_take hu
    have h2 : u ∈ db.users.filter (fun u => decide (0 < u.referral_count)) :=
      (List.perm_insertionSort leaderboard_le _).mem_iff.mp h1
    exact (List.mem_filter.mp h2).2
  · exact List.Pairwise.sublist (List.take_sublist _ _)
      (List.sorted_insertionSort leaderboard_le _)

/-- A string built around a newline pair is never empty. -/
theorem length_pos_append_nn (a b : String) : 0 < ((a ++ "\n\n") ++ b).length := by
  rw [String.length_append, String.length_append]
  have h : ("\n\n" : String).length = 2 := rfl
  omega

/-- C6: generate_post is total by construction, and for every offer and
every random draw the produced text is nonempty and contains both the
offer title and the affiliate link, in particular when gravity is absent
(the statement quantifies over all offers, so also those with
gravity none, for which the popularity line is simply omitted). -/
theorem c6_generate_post_nonempty_contains_title_link (offer : Offer)
    (ei hi ci ui : Nat) :
    0 < (generate_post offer ei hi ci ui).length ∧
    (∃ p s, generate_post offer ei hi ci ui = p ++ offer.title ++ s) ∧
    (∃ p s, generate_post offer ei hi ci ui = p ++ offer.affiliate_link ++ s) := by
  have hg : generate_post offer ei hi ci ui =
      pick (emojisFor offer.category) ei ++ " **" ++ pick hooks hi ++ "** " ++
      pick (emojisFor offer.category) ei ++ "\n\n" ++
      "🎯 **" ++ offer.title ++ "**\n\n" ++
      commission_text offer ++ "\n" ++
      "⭐ **Platform**: " ++ offer.platform ++ "\n" ++
      "📈 **Category**: " ++ title_case (offer.category.replace "_" " ") ++ "\n" ++
      gravity_line offer ++
      "\n" ++ offer.description ++ "\n\n" ++
      pick ctas ci ++ "\n" ++
      "🔗 " ++ offer.affiliate_link ++ "\n\n" ++
      pick urgency_phrases ui := rfl
  refine ⟨?_, ?_, ?_⟩
  · rw [hg]
    exact length_pos_append_nn _ _
  · refine ⟨pick (emojisFor offer.category) ei ++ " **" ++ pick hooks hi ++
      "** " ++ pick (emojisFor offer.category) ei ++ "\n\n" ++ "🎯 **",
      "**\n\n" ++ commission_text offer ++ "\n" ++
      "⭐ **Platform**: " ++ offer.platform ++ "\n" ++
      "📈 **Category**: " ++ title_case (offer.category.replace "_" " ") ++ "\n" ++
      gravity_line offer ++ "\n" ++ offer.description ++ "\n\n" ++
      pick ctas ci ++ "\n" ++ "🔗 " ++ offer.affiliate_link ++ "\n\n" ++
      pick urgency_phrases ui, ?_⟩
    rw [hg]
    simp [String.append_assoc]
  · refine ⟨pick (emojisFor offer.category) ei ++ " **" ++ pick hooks hi ++
      "** " ++ pick (emojisFor offer.category) ei ++ "\n\n" ++
      "🎯 **" ++ offer.title ++ "**\n\n" ++
      commission_text offer ++ "\n" ++
      "⭐ **Platform**: " ++ offer.platform ++ "\n" ++
      "📈 **Category**: " ++ title_case (offer.category.replace "_" " ") ++ "\n" ++
      gravity_line offer ++ "\n" ++ offer.description ++ "\n\n" ++
      pick ctas ci ++ "\n" ++ "🔗 ",
      "\n\n" ++ pick urgency_phrases ui, ?_⟩
    rw [hg]
    simp [String.append_assoc]

/-- C10: an offer whose gravity is exactly 0 renders identically to the
same offer with gravity absent — the popularity line is omitted — because
the source guards the line with float truthiness instead of an is-None
test, and the float 0.0 is falsy although 0 lies on the documented 0-100
gravity scale. -/
theorem c10_zero_gravity_rendered_as_absent (offer : Offer) (ei hi ci ui : Nat) :
    generate_post { offer with gravity := some 0 } ei hi ci ui =
      generate_post { offer with gravity := none } ei hi ci ui := by
  obtain ⟨i, t, d, cat, com, g, l, p⟩ := offer
  simp [generate_post, gravity_line, commission_text]

end TrendBot
